import Mathlib

/-!
# Verification of the `rebus` crossword decoders

A shallow embedding of the three crossword decoders of this repository
(`puz.rs` — binary Across Lite, `ipuz.rs` — JSON, `jpz.rs` — zip/XML) and of
the format dispatcher (`lib.rs`), together with theorems checking the
specification's claims against the code.

Modelling conventions:
* Rust byte buffers are `List Nat` (each entry a byte value).
* Rust `String` is Lean `String`; all string operations are re-implemented
  structurally over `String.data` so that concrete inputs evaluate inside the
  kernel.  Rust's Unicode case conversions are modelled by the ASCII
  `Char.toUpper`/`Char.toLower` maps, which agree with Rust on all inputs
  appearing in this development.
* Fallible Rust code returns `Except ParseError α`; the one reachable panic of
  the binary decoder (an out-of-bounds slice) is modelled by an outer
  `Option`, with `none` standing for a panic.
* External crates (serde_json, quick_xml, zip) are modelled at their
  interface: JSON input as an inductive `JsonValue` tree, XML input as a list
  of reader events, and zip extraction as an explicit function parameter.
-/

/-! ## Shared data model (types.rs, error.rs) -/

inductive CellKind where
  | Black
  | Letter
deriving DecidableEq, Repr

structure Cell where
  kind : CellKind
  number : Option Nat
  solution : Option String
  rebus_solution : Option String
  player_value : Option String
  is_circled : Bool
  was_incorrect : Bool
  is_revealed : Bool
deriving DecidableEq, Repr

structure Clue where
  number : Nat
  text : String
  row : Nat
  col : Nat
  length : Nat
deriving DecidableEq, Repr

structure Clues where
  across : List Clue
  down : List Clue
deriving DecidableEq, Repr

structure Puzzle where
  title : String
  author : String
  copyright : String
  notes : String
  width : Nat
  height : Nat
  grid : List (List Cell)
  clues : Clues
  has_solution : Bool
  is_scrambled : Bool
deriving DecidableEq, Repr

inductive ParseError where
  | InvalidMagic
  | FileTooShort (expected actual : Nat)
  | ChecksumMismatch (expected actual : Nat)
  | InvalidDimensions (width height : Nat)
  | UnexpectedEndOfStrings
  | Encoding (msg : String)
  | UnsupportedFormat (ext : String)
  | InvalidData (msg : String)
  | Json (msg : String)
  | Xml (msg : String)
deriving DecidableEq, Repr

/-! ## String helpers

Rust string operations used by the decoders, implemented structurally over
`String.data` so that they reduce in the kernel. -/

/-- Rust `str::to_uppercase`, modelled as the character-wise ASCII map. -/
def rustToUpper (s : String) : String := ⟨s.data.map Char.toUpper⟩

/-- Rust `str::to_lowercase`, modelled as the character-wise ASCII map. -/
def rustToLower (s : String) : String := ⟨s.data.map Char.toLower⟩

/-- UTF-8 byte size of a string (Rust `str::len`). -/
def rustLen (s : String) : Nat := s.data.foldl (fun n c => n + c.utf8Size) 0

/-- The one-character string holding the first character of `s`
(Rust `s.chars().next().unwrap().to_string()`; the default is unreachable at
every use site because the string is known to be nonempty). -/
def headStr (s : String) : String := ⟨[s.data.headD 'A']⟩

/-- Split a character list at every occurrence of `sep`
(Rust `str::split(sep)`, which keeps empty pieces). -/
def splitOnChar (sep : Char) : List Char → List (List Char)
  | [] => [[]]
  | c :: cs =>
    let r := splitOnChar sep cs
    if c = sep then [] :: r
    else
      match r with
      | h :: t => (c :: h) :: t
      | [] => [[c]]

/-- Split at the first occurrence of `sep` (Rust `str::split_once`). -/
def splitOnceChar (sep : Char) : List Char → Option (List Char × List Char)
  | [] => none
  | c :: cs =>
    if c = sep then some ([], cs)
    else (splitOnceChar sep cs).map (fun p => (c :: p.1, p.2))

/-- ASCII whitespace test (models Rust `char::is_whitespace` on the inputs
appearing in rebus tables). -/
def isWsChar (c : Char) : Bool :=
  c = ' ' ∨ c = '\t' ∨ c = '\n' ∨ c = '\r'

/-- Rust `str::trim` on a character list. -/
def trimChars (cs : List Char) : List Char :=
  ((cs.dropWhile isWsChar).reverse.dropWhile isWsChar).reverse

/-- Value of a non-empty all-digit character list, `none` otherwise. -/
def digitsVal? : List Char → Option Nat
  | [] => none
  | cs => go cs 0
where
  go : List Char → Nat → Option Nat
    | [], acc => some acc
    | c :: cs, acc =>
      if c.isDigit then go cs (acc * 10 + (c.toNat - '0'.toNat)) else none

/-- Rust integer `FromStr`: optional leading `+`, then digits. -/
def parseNat? (cs : List Char) : Option Nat :=
  match cs with
  | '+' :: rest => digitsVal? rest
  | _ => digitsVal? cs

/-- Rust `str::parse::<u8>()`. -/
def parseU8? (cs : List Char) : Option Nat :=
  (parseNat? cs).bind (fun n => if n < 256 then some n else none)

/-- Rust `str::parse::<u16>()`. -/
def parseU16? (cs : List Char) : Option Nat :=
  (parseNat? cs).bind (fun n => if n < 65536 then some n else none)

/-- Rust `str::parse::<u32>()`. -/
def parseU32? (cs : List Char) : Option Nat :=
  (parseNat? cs).bind (fun n => if n < 4294967296 then some n else none)

/-- Rust `str::parse::<usize>()` (64-bit). -/
def parseUsize? (cs : List Char) : Option Nat :=
  (parseNat? cs).bind (fun n => if n < 18446744073709551616 then some n else none)

/-- Substring test on character lists (`str::contains` for string patterns). -/
def listContainsSub (pat : List Char) : List Char → Bool
  | [] => pat.isEmpty
  | c :: cs => pat.isPrefixOf (c :: cs) || listContainsSub pat cs

/-- Rust `str::contains` for string patterns. -/
def strContainsSub (s pat : String) : Bool := listContainsSub pat.data s.data

/-- Rust `str::starts_with` for string patterns. -/
def strStartsWith (s pre : String) : Bool := pre.data.isPrefixOf s.data

/-! ## Byte-string decoding (puz.rs `decode_string`)

The binary decoder interprets each string first as UTF-8 and, if that fails,
as Windows-1252 (via the external `encoding_rs` crate, modelled here by the
standard code-point table). -/

/-- Is `b` a UTF-8 continuation byte? -/
def isCont (b : Nat) : Bool := 128 ≤ b ∧ b < 192

/-- Strict UTF-8 decoding of a byte list (rejects overlong forms and
surrogates, like Rust `std::str::from_utf8`). -/
def utf8Decode? : List Nat → Option (List Char)
  | [] => some []
  | b :: rest =>
    if b < 128 then
      (utf8Decode? rest).map (fun cs => Char.ofNat b :: cs)
    else if 194 ≤ b ∧ b < 224 then
      match rest with
      | b1 :: rest1 =>
        if isCont b1 then
          (utf8Decode? rest1).map
            (fun cs => Char.ofNat ((b - 192) * 64 + (b1 - 128)) :: cs)
        else none
      | [] => none
    else if 224 ≤ b ∧ b < 240 then
      match rest with
      | b1 :: b2 :: rest2 =>
        let okB1 : Bool :=
          if b = 224 then 160 ≤ b1 ∧ b1 < 192
          else if b = 237 then 128 ≤ b1 ∧ b1 < 160
          else isCont b1
        if okB1 ∧ isCont b2 then
          (utf8Decode? rest2).map
            (fun cs =>
              Char.ofNat ((b - 224) * 4096 + (b1 - 128) * 64 + (b2 - 128)) :: cs)
        else none
      | _ => none
    else if 240 ≤ b ∧ b < 245 then
      match rest with
      | b1 :: b2 :: b3 :: rest3 =>
        let okB1 : Bool :=
          if b = 240 then 144 ≤ b1 ∧ b1 < 192
          else if b = 244 then 128 ≤ b1 ∧ b1 < 144
          else isCont b1
        if okB1 ∧ isCont b2 ∧ isCont b3 then
          (utf8Decode? rest3).map
            (fun cs =>
              Char.ofNat
                ((b - 240) * 262144 + (b1 - 128) * 4096 + (b2 - 128) * 64 +
                  (b3 - 128)) :: cs)
        else none
      | _ => none
    else none

/-- The Windows-1252 code page: bytes 0x80–0x9F map through the special
table, all others coincide with their code point. -/
def win1252Char (b : Nat) : Char :=
  if b = 0x80 then Char.ofNat 0x20AC
  else if b = 0x82 then Char.ofNat 0x201A
  else if b = 0x83 then Char.ofNat 0x0192
  else if b = 0x84 then Char.ofNat 0x201E
  else if b = 0x85 then Char.ofNat 0x2026
  else if b = 0x86 then Char.ofNat 0x2020
  else if b = 0x87 then Char.ofNat 0x2021
  else if b = 0x88 then Char.ofNat 0x02C6
  else if b = 0x89 then Char.ofNat 0x2030
  else if b = 0x8A then Char.ofNat 0x0160
  else if b = 0x8B then Char.ofNat 0x2039
  else if b = 0x8C then Char.ofNat 0x0152
  else if b = 0x8E then Char.ofNat 0x017D
  else if b = 0x91 then Char.ofNat 0x2018
  else if b = 0x92 then Char.ofNat 0x2019
  else if b = 0x93 then Char.ofNat 0x201C
  else if b = 0x94 then Char.ofNat 0x201D
  else if b = 0x95 then Char.ofNat 0x2022
  else if b = 0x96 then Char.ofNat 0x2013
  else if b = 0x97 then Char.ofNat 0x2014
  else if b = 0x98 then Char.ofNat 0x02DC
  else if b = 0x99 then Char.ofNat 0x2122
  else if b = 0x9A then Char.ofNat 0x0161
  else if b = 0x9B then Char.ofNat 0x203A
  else if b = 0x9C then Char.ofNat 0x0153
  else if b = 0x9E then Char.ofNat 0x017E
  else if b = 0x9F then Char.ofNat 0x0178
  else Char.ofNat b

/-- puz.rs `decode_string`: UTF-8 first, Windows-1252 fallback. -/
def decode_string (bytes : List Nat) : String :=
  match utf8Decode? bytes with
  | some cs => ⟨cs⟩
  | none => ⟨bytes.map win1252Char⟩

/-! ## Binary decoder (crates/crossword-parser/src/puz.rs) -/

namespace Puz

def MAGIC : List Nat := [65, 67, 82, 79, 83, 83, 38, 68, 79, 87, 78, 0]

def OFFSET_MAGIC : Nat := 0x02
def OFFSET_WIDTH : Nat := 0x2C
def OFFSET_HEIGHT : Nat := 0x2D
def OFFSET_NUM_CLUES : Nat := 0x2E
def OFFSET_SCRAMBLED_TAG : Nat := 0x32
def HEADER_SIZE : Nat := 0x34

def EXT_GRBS : List Nat := [71, 82, 66, 83]
def EXT_RTBL : List Nat := [82, 84, 66, 76]
def EXT_GEXT : List Nat := [71, 69, 88, 84]
def EXT_LTIM : List Nat := [76, 84, 73, 77]

def GEXT_CIRCLED : Nat := 0x80
def GEXT_WAS_INCORRECT : Nat := 0x10
def GEXT_REVEALED : Nat := 0x40

/-- `data[i]` for a byte buffer; every use site is guarded in bounds, so the
default is unreachable. -/
def byteAt (data : List Nat) (i : Nat) : Nat := data.getD i 0

/-- Little-endian `read_u16` at offset `i` (both use sites are in bounds once
the header-length check has passed). -/
def readU16 (data : List Nat) (i : Nat) : Nat :=
  byteAt data i + 256 * byteAt data (i + 1)

/-- puz.rs `parse_strings`: read `count` null-terminated strings starting at
byte `pos`; an unterminated final string consumes the rest of the buffer and
stops, and once the buffer is exhausted the remaining slots are filled with
empty strings.  (The Rust function returns `Result` but never errors.) -/
def parseStringsGo (data : List Nat) : Nat → Nat → List String
  | 0, _ => []
  | n + 1, pos =>
    match (data.drop pos).findIdx? (· = 0) with
    | some e =>
      decode_string ((data.drop pos).take e) :: parseStringsGo data n (pos + e + 1)
    | none =>
      if pos < data.length then [decode_string (data.drop pos)]
      else "" :: parseStringsGo data n pos

def parse_strings (data : List Nat) (expected_count : Nat) : List String :=
  parseStringsGo data expected_count 0

/-- puz.rs `find_extensions_start`: skip `string_count` null-terminated
strings; `none` when a terminator is missing or nothing follows. -/
def findExtGo (data : List Nat) : Nat → Nat → Option Nat
  | 0, pos => if pos < data.length then some pos else none
  | n + 1, pos =>
    match (data.drop pos).findIdx? (· = 0) with
    | some e => findExtGo data n (pos + e + 1)
    | none => none

def find_extensions_start (data : List Nat) (string_count : Nat) : Option Nat :=
  findExtGo data string_count 0

structure Extensions where
  grbs : List Nat
  rtbl : List (Nat × String)
  gext : List Nat
  ltim : Option String
deriving DecidableEq, Repr

def Extensions.empty : Extensions := ⟨[], [], [], none⟩

/-- puz.rs `parse_rtbl`: entries `"key:VALUE;"`; the value is stored verbatim
(note: not uppercased).  The Rust `HashMap` receives the entries in order, so
lookups must take the last binding for a key. -/
def parse_rtbl (data : List Nat) : List (Nat × String) :=
  (splitOnChar ';' (decode_string data).data).filterMap fun rawEntry =>
    let entry := trimChars rawEntry
    if entry.isEmpty then none
    else
      match splitOnceChar ':' entry with
      | some (keyStr, value) =>
        match parseU8? (trimChars keyStr) with
        | some key => some (key, (⟨value⟩ : String))
        | none => none
      | none => none

/-- `HashMap::get` for the rebus table: the last inserted binding wins. -/
def rtblGet (m : List (Nat × String)) (k : Nat) : Option String :=
  m.foldl (fun acc p => if p.1 = k then some p.2 else acc) none

/-- puz.rs `parse_extensions`: walk named length-prefixed chunks; a chunk
whose payload would overrun the buffer stops the walk.  Structured as fuel
recursion: each step advances `pos` by at least 9, so `data.length + 1` steps
always suffice. -/
def parseExtGo (data : List Nat) : Nat → Nat → Extensions → Extensions
  | 0, _, ext => ext
  | fuel + 1, pos, ext =>
    if pos + 8 ≤ data.length then
      let name := (data.drop pos).take 4
      let length := byteAt data (pos + 4) + 256 * byteAt data (pos + 5)
      let sectionStart := pos + 8
      let sectionEnd := sectionStart + length
      if sectionEnd ≤ data.length then
        let sectionData := (data.drop sectionStart).take length
        let ext' :=
          if name = EXT_GRBS then { ext with grbs := sectionData }
          else if name = EXT_RTBL then { ext with rtbl := parse_rtbl sectionData }
          else if name = EXT_GEXT then { ext with gext := sectionData }
          else if name = EXT_LTIM then { ext with ltim := some (decode_string sectionData) }
          else ext
        parseExtGo data fuel (sectionEnd + 1) ext'
      else ext
    else ext

def parse_extensions (data : List Nat) : Extensions :=
  parseExtGo data (data.length + 1) 0 Extensions.empty

/-- puz.rs `is_across_start`. -/
def is_across_start (grid : List Nat) (w _h row col : Nat) : Bool :=
  let idx := row * w + col
  if byteAt grid idx = 46 then false
  else
    let left_is_boundary : Bool := col = 0 ∨ byteAt grid (idx - 1) = 46
    let right_is_letter : Bool := col + 1 < w ∧ byteAt grid (idx + 1) ≠ 46
    left_is_boundary && right_is_letter

/-- puz.rs `is_down_start`. -/
def is_down_start (grid : List Nat) (w h row col : Nat) : Bool :=
  let idx := row * w + col
  if byteAt grid idx = 46 then false
  else
    let above_is_boundary : Bool := row = 0 ∨ byteAt grid ((row - 1) * w + col) = 46
    let below_is_letter : Bool := row + 1 < h ∧ byteAt grid ((row + 1) * w + col) ≠ 46
    above_is_boundary && below_is_letter

/-- puz.rs `word_length_across` (fuel recursion over the at most `w - col`
remaining columns). -/
def wlaGo (grid : List Nat) (w row : Nat) : Nat → Nat → Nat
  | 0, _ => 0
  | fuel + 1, c =>
    if c < w ∧ byteAt grid (row * w + c) ≠ 46 then 1 + wlaGo grid w row fuel (c + 1)
    else 0

def word_length_across (grid : List Nat) (w row col : Nat) : Nat :=
  wlaGo grid w row (w - col) col

/-- puz.rs `word_length_down`. -/
def wldGo (grid : List Nat) (w h col : Nat) : Nat → Nat → Nat
  | 0, _ => 0
  | fuel + 1, r =>
    if r < h ∧ byteAt grid (r * w + col) ≠ 46 then 1 + wldGo grid w h col fuel (r + 1)
    else 0

def word_length_down (grid : List Nat) (w h row col : Nat) : Nat :=
  wldGo grid w h col (h - row) row

/-- The all-default black cell pushed by every decoder. -/
def blackCell : Cell :=
  { kind := CellKind.Black
    number := none
    solution := none
    rebus_solution := none
    player_value := none
    is_circled := false
    was_incorrect := false
    is_revealed := false }

/-- The mutable numbering state threaded through `build_grid`'s loops. -/
structure NumState where
  clueNumber : Nat
  clueIdx : Nat
  across : List Clue
  down : List Clue
deriving DecidableEq, Repr

/-- The body of `build_grid`'s inner loop for one cell at `(row, col)`. -/
def processCell (sol state : List Nat) (w h : Nat) (clue_texts : List String)
    (ext : Extensions) (row col : Nat) (s : NumState) : Cell × NumState :=
  let idx := row * w + col
  let sol_byte := byteAt sol idx
  let state_byte := byteAt state idx
  if sol_byte = 46 then (blackCell, s)
  else
    let starts_across := is_across_start sol w h row col
    let starts_down := is_down_start sol w h row col
    let solution : Option String :=
      if sol_byte ≠ 45 ∧ sol_byte ≠ 58 then
        some ⟨[(Char.ofNat sol_byte).toUpper]⟩
      else none
    let rebus_solution : Option String :=
      if ext.grbs ≠ [] ∧ idx < ext.grbs.length then
        let rebus_key := byteAt ext.grbs idx
        if rebus_key > 0 then rtblGet ext.rtbl (rebus_key - 1) else none
      else none
    let player_value : Option String :=
      if state_byte ≠ 45 ∧ state_byte ≠ 46 ∧ state_byte ≠ 0 then
        some ⟨[(Char.ofNat state_byte).toUpper]⟩
      else none
    let gext_byte := ext.gext.getD idx 0
    let is_circled := Nat.land gext_byte GEXT_CIRCLED ≠ 0
    let was_incorrect := Nat.land gext_byte GEXT_WAS_INCORRECT ≠ 0
    let is_revealed := Nat.land gext_byte GEXT_REVEALED ≠ 0
    if starts_across || starts_down then
      let n := s.clueNumber
      let acrossIdx := if starts_across then s.clueIdx + 1 else s.clueIdx
      let across' :=
        if starts_across then
          s.across ++ [{ number := n
                         text := clue_texts.getD s.clueIdx ""
                         row := row, col := col
                         length := word_length_across sol w row col }]
        else s.across
      let downIdx := if starts_down then acrossIdx + 1 else acrossIdx
      let down' :=
        if starts_down then
          s.down ++ [{ number := n
                       text := clue_texts.getD acrossIdx ""
                       row := row, col := col
                       length := word_length_down sol w h row col }]
        else s.down
      ({ kind := CellKind.Letter
         number := some n
         solution := solution
         rebus_solution := rebus_solution
         player_value := player_value
         is_circled := is_circled
         was_incorrect := was_incorrect
         is_revealed := is_revealed },
       { clueNumber := n + 1, clueIdx := downIdx, across := across', down := down' })
    else
      ({ kind := CellKind.Letter
         number := none
         solution := solution
         rebus_solution := rebus_solution
         player_value := player_value
         is_circled := is_circled
         was_incorrect := was_incorrect
         is_revealed := is_revealed },
       s)

/-- `build_grid`'s inner loop over the columns of one row. -/
def colLoop (sol state : List Nat) (w h : Nat) (clue_texts : List String)
    (ext : Extensions) (row : Nat) : List Nat → NumState → List Cell × NumState
  | [], s => ([], s)
  | col :: cols, s =>
    let cs := processCell sol state w h clue_texts ext row col s
    let rest := colLoop sol state w h clue_texts ext row cols cs.2
    (cs.1 :: rest.1, rest.2)

/-- `build_grid`'s outer loop over rows. -/
def rowLoop (sol state : List Nat) (w h : Nat) (clue_texts : List String)
    (ext : Extensions) : List Nat → NumState → List (List Cell) × NumState
  | [], s => ([], s)
  | row :: rows, s =>
    let rs := colLoop sol state w h clue_texts ext row (List.range w) s
    let rest := rowLoop sol state w h clue_texts ext rows rs.2
    (rs.1 :: rest.1, rest.2)

/-- puz.rs `build_grid` (the Rust function returns `Result` but never
errors). -/
def build_grid (width height : Nat) (solution_grid state_grid : List Nat)
    (clue_texts : List String) (extensions : Extensions) :
    List (List Cell) × List Clue × List Clue :=
  let r := rowLoop solution_grid state_grid width height clue_texts extensions
    (List.range height) { clueNumber := 1, clueIdx := 0, across := [], down := [] }
  (r.1, r.2.across, r.2.down)

/-! Named pieces of `parse`, in the order the Rust function computes them. -/

def widthOf (data : List Nat) : Nat := byteAt data OFFSET_WIDTH
def heightOf (data : List Nat) : Nat := byteAt data OFFSET_HEIGHT
def numCluesOf (data : List Nat) : Nat := readU16 data OFFSET_NUM_CLUES
def scrambledTagOf (data : List Nat) : Nat := readU16 data OFFSET_SCRAMBLED_TAG
def gridSizeOf (data : List Nat) : Nat := widthOf data * heightOf data
def stateEndOf (data : List Nat) : Nat := HEADER_SIZE + gridSizeOf data + gridSizeOf data
def solutionGridOf (data : List Nat) : List Nat :=
  (data.drop HEADER_SIZE).take (gridSizeOf data)
def stateGridOf (data : List Nat) : List Nat :=
  (data.drop (HEADER_SIZE + gridSizeOf data)).take (gridSizeOf data)
def tailOf (data : List Nat) : List Nat := data.drop (stateEndOf data)
def stringsOf (data : List Nat) : List String :=
  parse_strings (tailOf data) (numCluesOf data + 4)
def clueTextsOf (data : List Nat) : List String :=
  ((stringsOf data).drop 3).take (numCluesOf data)
def extensionsOf (data : List Nat) : Extensions :=
  match find_extensions_start (tailOf data) (numCluesOf data + 4) with
  | some off => parse_extensions ((tailOf data).drop off)
  | none => Extensions.empty

/-- The `Puzzle` value `parse` returns on success. -/
def mkPuzzleFrom (data : List Nat) : Puzzle :=
  let g := build_grid (widthOf data) (heightOf data) (solutionGridOf data)
    (stateGridOf data) (clueTextsOf data) (extensionsOf data)
  { title := (stringsOf data).getD 0 ""
    author := (stringsOf data).getD 1 ""
    copyright := (stringsOf data).getD 2 ""
    notes := (stringsOf data).getD (3 + numCluesOf data) ""
    width := widthOf data
    height := heightOf data
    grid := g.1
    clues := { across := g.2.1, down := g.2.2 }
    has_solution := scrambledTagOf data = 0
    is_scrambled := scrambledTagOf data ≠ 0 }

/-- puz.rs `parse`.  `none` models the Rust panic: when the string table ends
without a terminator and yields fewer than `3 + num_clues` strings, the slice
`strings[3..3 + num_clues]` is out of range. -/
def parse (data : List Nat) : Option (Except ParseError Puzzle) :=
  if data.length < HEADER_SIZE then
    some (.error (.FileTooShort HEADER_SIZE data.length))
  else if (data.drop OFFSET_MAGIC).take 12 ≠ MAGIC then
    some (.error .InvalidMagic)
  else if widthOf data = 0 ∨ heightOf data = 0 then
    some (.error (.InvalidDimensions (widthOf data) (heightOf data)))
  else if data.length < stateEndOf data then
    some (.error (.FileTooShort (stateEndOf data) data.length))
  else if (stringsOf data).length < 3 + numCluesOf data then
    none
  else
    some (.ok (mkPuzzleFrom data))

end Puz

/-! ## JSON decoder (crates/xword-parser/src/ipuz.rs)

The serde_json layer is modelled by the `JsonValue` tree and the already
deserialized `IpuzFile` record: every byte input that `serde_json` accepts
reaches `parse`'s body exactly through such a record. -/

namespace Ipuz

/-- serde_json `Value`.  Non-integral numbers are collapsed into `float`,
which behaves like the Rust original under `as_u64`/`as_str` (both `None`). -/
inductive JsonValue where
  | null
  | bool (b : Bool)
  | num (n : Int)
  | float
  | str (s : String)
  | arr (xs : List JsonValue)
  | obj (fields : List (String × JsonValue))

/-- serde_json `Value::as_u64`. -/
def asU64 : JsonValue → Option Nat
  | .num n => if 0 ≤ n ∧ n < 18446744073709551616 then some n.toNat else none
  | _ => none

/-- serde_json `Value::as_str`. -/
def asStr : JsonValue → Option String
  | .str s => some s
  | _ => none

/-- serde_json `Value::get` for object keys. -/
def jget (v : JsonValue) (key : String) : Option JsonValue :=
  match v with
  | .obj fields => (fields.find? (fun f => f.1 = key)).map (fun f => f.2)
  | _ => none

structure IpuzDimensions where
  width : Nat
  height : Nat
deriving DecidableEq, Repr

structure IpuzClues where
  across : List JsonValue
  down : List JsonValue

structure IpuzFile where
  kind : List String
  dimensions : Option IpuzDimensions
  puzzle : Option (List (List JsonValue))
  solution : Option (List (List JsonValue))
  clues : Option IpuzClues
  title : Option String
  author : Option String
  copyright : Option String
  notes : Option String

/-- ipuz.rs `parse_puzzle_cell`: `(is_black, clue_number, is_circled)`. -/
def parse_puzzle_cell (val : JsonValue) : Bool × Option Nat × Bool :=
  match val with
  | .str s => if s = "#" then (true, none, false) else (false, none, false)
  | .num n =>
    if asU64 (.num n) = some 0 then (false, none, false)
    else
      let num := (asU64 (.num n)).getD 0
      if num > 0 then (false, some num, false) else (false, none, false)
  | .null => (true, none, false)
  | .obj fields =>
    let v := JsonValue.obj fields
    let cell_num := (jget v "cell").bind asU64
    let is_circled :=
      (((jget v "style").bind (fun s => jget s "shapebg")).bind asStr).elim false
        (fun s => s == "circle")
    let is_block := ((jget v "cell").map (fun c => asStr c == some "#")).getD false
    if is_block then (true, none, false)
    else (false, cell_num.bind (fun n => if n > 0 then some n else none), is_circled)
  | _ => (false, none, false)

/-- ipuz.rs `parse_solution_cell`: `(solution, rebus_solution)`.  Note the
rebus test is on the UTF-8 byte length of the uppercased string. -/
def parse_solution_cell (val : JsonValue) : Option String × Option String :=
  match val with
  | .str s =>
    if s = "#" ∨ s = "" then (none, none)
    else
      let upper := rustToUpper s
      if rustLen upper > 1 then (some (headStr upper), some upper)
      else (some upper, none)
  | .null => (none, none)
  | .obj fields =>
    match (jget (.obj fields) "value").bind asStr with
    | some v =>
      let upper := rustToUpper v
      if rustLen upper > 1 then (some (headStr upper), some upper)
      else (some upper, none)
    | none => (none, none)
  | _ => (none, none)

/-- One row of the grid-building loop (cells of `puzzle_row`, with the
column index tracked for the solution-grid lookup). -/
def buildRow (solution_grid : Option (List (List JsonValue))) (row : Nat) :
    Nat → List JsonValue → List Cell
  | _, [] => []
  | col, cell_val :: rest =>
    let pc := parse_puzzle_cell cell_val
    let cell :=
      if pc.1 then Puz.blackCell
      else
        let sr :=
          match solution_grid with
          | some sol_grid =>
            match (sol_grid.get? row).bind (fun r => r.get? col) with
            | some sol_val => parse_solution_cell sol_val
            | none => (none, none)
          | none => (none, none)
        { kind := CellKind.Letter
          number := pc.2.1
          solution := sr.1
          rebus_solution := sr.2
          player_value := none
          is_circled := pc.2.2
          was_incorrect := false
          is_revealed := false }
    cell :: buildRow solution_grid row (col + 1) rest

/-- The grid-building loop over rows, failing on the first row whose width is
wrong (ipuz.rs `parse`, middle section). -/
def buildRows (solution_grid : Option (List (List JsonValue))) (w : Nat) :
    Nat → List (List JsonValue) → Except ParseError (List (List Cell))
  | _, [] => .ok []
  | row, puzzle_row :: rest =>
    if puzzle_row.length ≠ w then
      .error (.InvalidData ("row " ++ toString row ++ " has " ++
        toString puzzle_row.length ++ " cells, expected " ++ toString w))
    else
      match buildRows solution_grid w (row + 1) rest with
      | .ok rs => .ok (buildRow solution_grid row 0 puzzle_row :: rs)
      | .error e => .error e

/-- ipuz.rs `find_clue_position`: row-major scan for the cell numbered
`number`. -/
def findCluePosGo (number : Nat) : Nat → List (List Cell) → Option (Nat × Nat)
  | _, [] => none
  | r, row :: rows =>
    match row.findIdx? (fun cell => cell.number = some number) with
    | some c => some (r, c)
    | none => findCluePosGo number (r + 1) rows

def find_clue_position (grid : List (List Cell)) (number : Nat) : Option (Nat × Nat) :=
  findCluePosGo number 0 grid

/-- The cell at `(row, col)` of a typed grid (in bounds at every use site). -/
def cellAt (grid : List (List Cell)) (row col : Nat) : Cell :=
  (grid.getD row []).getD col Puz.blackCell

/-- ipuz.rs `compute_word_length_across` (fuel recursion over the at most
`w - col` remaining columns). -/
def cwlaGo (grid : List (List Cell)) (w row : Nat) : Nat → Nat → Nat
  | 0, _ => 0
  | fuel + 1, c =>
    if c < w then
      if (cellAt grid row c).kind = CellKind.Black then 0
      else 1 + cwlaGo grid w row fuel (c + 1)
    else 0

def compute_word_length_across (grid : List (List Cell)) (w row col : Nat) : Nat :=
  cwlaGo grid w row (w - col) col

/-- ipuz.rs `compute_word_length_down`. -/
def cwldGo (grid : List (List Cell)) (h col : Nat) : Nat → Nat → Nat
  | 0, _ => 0
  | fuel + 1, r =>
    if r < h then
      if (cellAt grid r col).kind = CellKind.Black then 0
      else 1 + cwldGo grid h col fuel (r + 1)
    else 0

def compute_word_length_down (grid : List (List Cell)) (h row col : Nat) : Nat :=
  cwldGo grid h col (h - row) row

/-- ipuz.rs `build_clues`: array entries `[number, text, ...]`; entries that
are not arrays of length ≥ 2 are skipped; an array entry whose first element
is not an unsigned integer, or whose number has no grid cell, fails the whole
decode. -/
def build_clues (clue_values : List JsonValue) (grid : List (List Cell))
    (w h : Nat) (is_across : Bool) : Except ParseError (List Clue) :=
  match clue_values with
  | [] => .ok []
  | val :: rest =>
    match val with
    | .arr a =>
      if a.length ≥ 2 then
        match asU64 (a.getD 0 .null) with
        | none => .error (.InvalidData "clue number is not a number")
        | some number =>
          let text := ((asStr (a.getD 1 .null)).getD "")
          match find_clue_position grid number with
          | none =>
            .error (.InvalidData ("clue " ++ toString number ++ " not found in grid"))
          | some rc =>
            let length :=
              if is_across then compute_word_length_across grid w rc.1 rc.2
              else compute_word_length_down grid h rc.1 rc.2
            match build_clues rest grid w h is_across with
            | .ok cs =>
              .ok ({ number := number, text := text, row := rc.1, col := rc.2,
                     length := length } :: cs)
            | .error e => .error e
      else build_clues rest grid w h is_across
    | _ => build_clues rest grid w h is_across

/-- ipuz.rs `parse`, from the deserialized `IpuzFile`. -/
def parse (ipuz : IpuzFile) : Except ParseError Puzzle :=
  if ¬ ipuz.kind.any (fun k => strStartsWith k "http://ipuz.org/crossword") then
    .error (.InvalidData "ipuz file is not a crossword puzzle (missing crossword kind)")
  else
    match ipuz.dimensions with
    | none => .error (.InvalidData "missing dimensions")
    | some dims =>
      let w := dims.width
      let h := dims.height
      if w = 0 ∨ h = 0 then .error (.InvalidDimensions w h)
      else
        match ipuz.puzzle with
        | none => .error (.InvalidData "missing puzzle grid")
        | some puzzle_grid =>
          if puzzle_grid.length ≠ h then
            .error (.InvalidData ("puzzle grid has " ++ toString puzzle_grid.length ++
              " rows, expected " ++ toString h))
          else
            match buildRows ipuz.solution w 0 puzzle_grid with
            | .error e => .error e
            | .ok grid =>
              match ipuz.clues with
              | none => .error (.InvalidData "missing clues")
              | some ipuz_clues =>
                match build_clues ipuz_clues.across grid w h true with
                | .error e => .error e
                | .ok across_clues =>
                  match build_clues ipuz_clues.down grid w h false with
                  | .error e => .error e
                  | .ok down_clues =>
                    .ok { title := ipuz.title.getD ""
                          author := ipuz.author.getD ""
                          copyright := ipuz.copyright.getD ""
                          notes := ipuz.notes.getD ""
                          width := dims.width
                          height := dims.height
                          grid := grid
                          clues := { across := across_clues, down := down_clues }
                          has_solution := ipuz.solution.isSome
                          is_scrambled := false }

end Ipuz

/-! ## Archive/XML decoder (crates/xword-parser/src/jpz.rs)

The quick_xml layer is modelled by a list of reader events: `start`/`empty`
carry the tag's local name and its attributes (already UTF-8 decoded, like the
`unwrap_or("")` conversions in the source), `text` carries unescaped text (the
reader is configured with `trim_text(true)`), and `err` stands for a reader
error.  The zip layer is an explicit extraction-function parameter of
`parse`. -/

namespace Jpz

inductive XmlEvent where
  | start (name : String) (attrs : List (String × String))
  | empty (name : String) (attrs : List (String × String))
  | text (t : String)
  | endTag (name : String)
  | err (msg : String)
  | other

structure WordDef where
  id : String
  start_col : Nat
  start_row : Nat
  length : Nat
deriving DecidableEq, Repr

structure RawCell where
  x : Nat
  y : Nat
  solution : Option String
  number : Option Nat
  is_block : Bool
  is_circled : Bool
deriving DecidableEq, Repr

structure RawClue where
  word_id : String
  number : Nat
  text : String
deriving DecidableEq, Repr

/-- The mutable locals of `parse_xml`'s event loop. -/
structure XmlState where
  title : String
  creator : String
  copyright : String
  description : String
  grid_width : Nat
  grid_height : Nat
  raw_cells : List RawCell
  word_defs : List WordDef
  across_clues : List RawClue
  down_clues : List RawClue
  in_metadata : Bool
  in_title : Bool
  in_creator : Bool
  in_copyright : Bool
  in_description : Bool
  in_clues : Bool
  current_clue_direction : Option Bool
  in_clue : Bool
  current_clue_word_id : String
  current_clue_number : Nat
  current_clue_text : String
  in_clue_title : Bool
deriving DecidableEq, Repr

def initState : XmlState :=
  { title := "", creator := "", copyright := "", description := ""
    grid_width := 0, grid_height := 0
    raw_cells := [], word_defs := [], across_clues := [], down_clues := []
    in_metadata := false, in_title := false, in_creator := false
    in_copyright := false, in_description := false, in_clues := false
    current_clue_direction := none, in_clue := false
    current_clue_word_id := "", current_clue_number := 0
    current_clue_text := "", in_clue_title := false }

/-- `val.parse().unwrap_or(0)` at `u8` type (grid width/height). -/
def parseU8D0 (val : String) : Nat := (parseU8? val.data).getD 0

/-- `val.parse().unwrap_or(0)` at `usize` type (cell coordinates). -/
def parseUsizeD0 (val : String) : Nat := (parseUsize? val.data).getD 0

/-- jpz.rs `parse_cell_element` (the Rust function returns `Result` but never
errors): fold the attributes over a default `RawCell`. -/
def parse_cell_element (attrs : List (String × String)) : RawCell :=
  attrs.foldl
    (fun c attr =>
      let key := attr.1
      let val := attr.2
      if key = "x" then { c with x := parseUsizeD0 val }
      else if key = "y" then { c with y := parseUsizeD0 val }
      else if key = "solution" then { c with solution := some val }
      else if key = "number" then { c with number := parseU32? val.data }
      else if key = "type" ∧ val = "block" then { c with is_block := true }
      else if key = "background-shape" ∧ val = "circle" then { c with is_circled := true }
      else c)
    { x := 0, y := 0, solution := none, number := none,
      is_block := false, is_circled := false }

/-- jpz.rs `parse_range`: `"1-6"` to `(1, 6)`. -/
def parse_range (s : String) : Except ParseError (Nat × Nat) :=
  let parts := splitOnChar '-' s.data
  if parts.length ≠ 2 then .error (.Xml ("invalid range: " ++ s))
  else
    match parseUsize? (parts.getD 0 []) with
    | none => .error (.Xml ("invalid range start: " ++ s))
    | some start =>
      match parseUsize? (parts.getD 1 []) with
      | none => .error (.Xml ("invalid range end: " ++ s))
      | some stop => .ok (start, stop)

/-- jpz.rs `parse_word_element`.  The span length `(end - start + 1) as u8`
is modelled with Nat subtraction and a mod-256 cast (release-mode wrap). -/
def parse_word_element (attrs : List (String × String)) :
    Except ParseError (Option WordDef) :=
  let acc := attrs.foldl
    (fun (a : String × String × String) attr =>
      let key := attr.1
      let val := attr.2
      if key = "id" then (val, a.2.1, a.2.2)
      else if key = "x" then (a.1, val, a.2.2)
      else if key = "y" then (a.1, a.2.1, val)
      else a)
    ("", "", "")
  let id := acc.1
  let x_attr := acc.2.1
  let y_attr := acc.2.2
  if id = "" then .ok none
  else if x_attr.data.contains '-' then
    match parse_range x_attr with
    | .error e => .error e
    | .ok se =>
      match parseUsize? y_attr.data with
      | none => .error (.Xml ("invalid word y: " ++ y_attr))
      | some row =>
        .ok (some { id := id, start_col := se.1 - 1, start_row := row - 1,
                    length := (se.2 - se.1 + 1) % 256 })
  else if y_attr.data.contains '-' then
    match parse_range y_attr with
    | .error e => .error e
    | .ok se =>
      match parseUsize? x_attr.data with
      | none => .error (.Xml ("invalid word x: " ++ x_attr))
      | some col =>
        .ok (some { id := id, start_col := col - 1, start_row := se.1 - 1,
                    length := (se.2 - se.1 + 1) % 256 })
  else .ok none

/-- jpz.rs `strip_html_tags`. -/
def stripTagsGo : List Char → Bool → List Char
  | [], _ => []
  | c :: cs, in_tag =>
    if c = '<' then stripTagsGo cs true
    else if c = '>' then stripTagsGo cs false
    else if in_tag then stripTagsGo cs in_tag
    else c :: stripTagsGo cs in_tag

def strip_html_tags (s : String) : String := ⟨stripTagsGo s.data false⟩

/-- The `Event::Start`/`Event::Empty` arm of the event loop.  The match-arm
order of the source (with its `if` guards) is preserved: a `title` tag checks
the metadata context before the clues context. -/
def handleStart (st : XmlState) (name : String) (attrs : List (String × String)) :
    Except ParseError XmlState :=
  if name = "metadata" then .ok { st with in_metadata := true }
  else if name = "title" ∧ st.in_metadata then .ok { st with in_title := true }
  else if name = "creator" ∧ st.in_metadata then .ok { st with in_creator := true }
  else if name = "copyright" ∧ st.in_metadata then .ok { st with in_copyright := true }
  else if name = "description" ∧ st.in_metadata then .ok { st with in_description := true }
  else if name = "grid" then
    .ok (attrs.foldl
      (fun s attr =>
        if attr.1 = "width" then { s with grid_width := parseU8D0 attr.2 }
        else if attr.1 = "height" then { s with grid_height := parseU8D0 attr.2 }
        else s)
      st)
  else if name = "cell" then
    .ok { st with raw_cells := st.raw_cells ++ [parse_cell_element attrs] }
  else if name = "word" then
    match parse_word_element attrs with
    | .error e => .error e
    | .ok (some w) => .ok { st with word_defs := st.word_defs ++ [w] }
    | .ok none => .ok st
  else if name = "clues" then
    .ok { st with in_clues := true, current_clue_direction := none }
  else if name = "title" ∧ st.in_clues then .ok { st with in_clue_title := true }
  else if name = "clue" ∧ st.in_clues then
    .ok (attrs.foldl
      (fun s attr =>
        if attr.1 = "word" then { s with current_clue_word_id := attr.2 }
        else if attr.1 = "number" then
          { s with current_clue_number := (parseU32? attr.2.data).getD 0 }
        else s)
      { st with in_clue := true, current_clue_text := "",
                current_clue_word_id := "", current_clue_number := 0 })
  else .ok st

/-- The `Event::Text` arm of the event loop. -/
def handleText (st : XmlState) (t : String) : XmlState :=
  if st.in_title ∧ st.in_metadata then { st with title := st.title ++ t }
  else if st.in_creator then { st with creator := st.creator ++ t }
  else if st.in_copyright then { st with copyright := st.copyright ++ t }
  else if st.in_description then { st with description := st.description ++ t }
  else if st.in_clue_title ∧ st.in_clues then
    let lower := rustToLower t
    if strContainsSub lower "across" then { st with current_clue_direction := some true }
    else if strContainsSub lower "down" then { st with current_clue_direction := some false }
    else st
  else if st.in_clue then { st with current_clue_text := st.current_clue_text ++ t }
  else st

/-- The `Event::End` arm of the event loop. -/
def handleEnd (st : XmlState) (name : String) : XmlState :=
  if name = "metadata" then { st with in_metadata := false }
  else if name = "title" ∧ st.in_metadata then { st with in_title := false }
  else if name = "title" ∧ st.in_clues then { st with in_clue_title := false }
  else if name = "creator" then { st with in_creator := false }
  else if name = "copyright" then { st with in_copyright := false }
  else if name = "description" then { st with in_description := false }
  else if name = "clues" then
    { st with in_clues := false, current_clue_direction := none }
  else if name = "clue" then
    let st' :=
      if st.in_clue ∧ st.current_clue_number > 0 then
        let raw : RawClue :=
          { word_id := st.current_clue_word_id
            number := st.current_clue_number
            text := strip_html_tags st.current_clue_text }
        match st.current_clue_direction with
        | some true => { st with across_clues := st.across_clues ++ [raw] }
        | some false => { st with down_clues := st.down_clues ++ [raw] }
        | none => st
      else st
    { st' with in_clue := false }
  else st

/-- The event loop of `parse_xml`. -/
def runEvents : List XmlEvent → XmlState → Except ParseError XmlState
  | [], st => .ok st
  | ev :: rest, st =>
    match ev with
    | .start name attrs | .empty name attrs =>
      match handleStart st name attrs with
      | .ok st' => runEvents rest st'
      | .error e => .error e
    | .text t => runEvents rest (handleText st t)
    | .endTag name => runEvents rest (handleEnd st name)
    | .err msg => .error (.Xml ("XML parse error: " ++ msg))
    | .other => runEvents rest st

/-- The default cell of the pre-sized output grid. -/
def initLetterCell : Cell :=
  { kind := CellKind.Letter, number := none, solution := none,
    rebus_solution := none, player_value := none, is_circled := false,
    was_incorrect := false, is_revealed := false }

/-- The rebus split applied to a cell's optional `solution` attribute
(jpz.rs `parse_xml`, grid-building section). -/
def solutionPair (sol : Option String) : Option String × Option String :=
  match sol with
  | some s =>
    let upper := rustToUpper s
    if rustLen upper > 1 then (some (headStr upper), some upper)
    else (some upper, none)
  | none => (none, none)

/-- Write `cell` at `(row, col)` of a row-major grid (in bounds at every use
site). -/
def set2d (grid : List (List Cell)) (row col : Nat) (cell : Cell) :
    List (List Cell) :=
  grid.set row ((grid.getD row []).set col cell)

/-- One step of the grid-building loop over `raw_cells`: place a parsed cell,
converting 1-indexed coordinates with `saturating_sub`, skipping coordinates
beyond the grid, and recording whether any placed letter cell carried a
solution. -/
def placeCell (w h : Nat) (acc : List (List Cell) × Bool) (cell : RawCell) :
    List (List Cell) × Bool :=
  let col := cell.x - 1
  let row := cell.y - 1
  if row ≥ h ∨ col ≥ w then acc
  else if cell.is_block then (set2d acc.1 row col Puz.blackCell, acc.2)
  else
    let has_solution := acc.2 || cell.solution.isSome
    let sr := solutionPair cell.solution
    (set2d acc.1 row col
      { kind := CellKind.Letter
        number := cell.number
        solution := sr.1
        rebus_solution := sr.2
        player_value := none
        is_circled := cell.is_circled
        was_incorrect := false
        is_revealed := false },
     has_solution)

/-- `HashMap::get` on the word table collected from `word_defs` (a later
definition with the same id overwrites an earlier one). -/
def wordLookup (defs : List WordDef) (id : String) : Option WordDef :=
  defs.foldl (fun acc wd => if wd.id = id then some wd else acc) none

/-- jpz.rs `build_clues_from_raw` (returns `Result` but never errors): clues
whose word id is unknown are dropped. -/
def build_clues_from_raw (raw_clues : List RawClue) (defs : List WordDef) :
    List Clue :=
  raw_clues.filterMap fun raw =>
    (wordLookup defs raw.word_id).map fun word =>
      { number := raw.number, text := raw.text,
        row := word.start_row, col := word.start_col, length := word.length }

/-- The post-loop section of `parse_xml`: dimension check, grid assembly from
`raw_cells`, and clue assembly. -/
def finalize (st : XmlState) : Except ParseError Puzzle :=
  if st.grid_width = 0 ∨ st.grid_height = 0 then
    .error (.InvalidDimensions st.grid_width st.grid_height)
  else
    let w := st.grid_width
    let h := st.grid_height
    let start : List (List Cell) × Bool :=
      (List.replicate h (List.replicate w initLetterCell), false)
    let gb := st.raw_cells.foldl (placeCell w h) start
    .ok { title := st.title
          author := st.creator
          copyright := st.copyright
          notes := st.description
          width := st.grid_width
          height := st.grid_height
          grid := gb.1
          clues := { across := build_clues_from_raw st.across_clues st.word_defs
                     down := build_clues_from_raw st.down_clues st.word_defs }
          has_solution := gb.2
          is_scrambled := false }

/-- jpz.rs `parse_xml`. -/
def parse_xml (events : List XmlEvent) : Except ParseError Puzzle :=
  match runEvents events initState with
  | .ok st => finalize st
  | .error e => .error e

def ZIP_MAGIC : List Nat := [0x50, 0x4B, 0x03, 0x04]

/-- jpz.rs `parse`, abstracted over the two external layers: `zipExtract`
models `extract_from_zip` (the zip crate) and `xmlEvents` models the
quick_xml reader turning bytes into events. -/
def parse (zipExtract : List Nat → Except ParseError (List Nat))
    (xmlEvents : List Nat → List XmlEvent) (data : List Nat) :
    Except ParseError Puzzle :=
  if ZIP_MAGIC.isPrefixOf data then
    match zipExtract data with
    | .ok xml_data => parse_xml (xmlEvents xml_data)
    | .error e => .error e
  else parse_xml (xmlEvents data)

end Jpz

/-! ## Format dispatcher (crates/xword-parser/src/lib.rs)

The three decoders take different modelled input shapes (bytes, a JSON tree,
an event list), so the dispatcher is embedded with the decoder calls
abstracted into a `Route` tag; the routing logic itself — the lowercased
match, the merged `"jpz" | "xml"` arm, and the `UnsupportedFormat` fallback —
is verbatim. -/

namespace XwordParser

inductive Route where
  | puz
  | ipuz
  | jpz
deriving DecidableEq, Repr

/-- lib.rs `parse`, with each decoder call abstracted to its `Route` tag. -/
def parse (extension : String) : Except ParseError Route :=
  let e := rustToLower extension
  if e = "puz" then .ok .puz
  else if e = "ipuz" then .ok .ipuz
  else if e = "jpz" ∨ e = "xml" then .ok .jpz
  else .error (.UnsupportedFormat e)

end XwordParser

/-! ## Concrete fixtures and claim-level notions -/

deriving instance DecidableEq for Except

/-- A 0x34-byte buffer holding only a well-formed header (3×3 grid declared,
no room for the grids). -/
def puzHeaderOnly : List Nat :=
  List.replicate 2 0 ++ Puz.MAGIC ++ List.replicate 30 0 ++ [3, 3, 0, 0, 0, 0, 0, 0]

/-- A buffer whose string table ends, unterminated, after a single string
even though the header declares one clue (so `3 + num_clues + 1` strings are
expected): header for a 1×1 grid with one clue, the two 1-byte grids, then
the two bytes `"AB"` with no null terminator. -/
def c10Bytes : List Nat :=
  List.replicate 2 0 ++ Puz.MAGIC ++ List.replicate 30 0 ++
    [1, 1, 1, 0, 0, 0, 0, 0] ++ [65, 45] ++ [65, 66]

/-- A 1×1 binary puzzle whose only cell has solution byte `'X'` and whose
`GRBS`/`RTBL` extensions mark that cell as a rebus with table entry
`"0:cat;"`. -/
def c2Bytes : List Nat :=
  List.replicate 2 0 ++ Puz.MAGIC ++ List.replicate 30 0 ++
    [1, 1, 0, 0, 0, 0, 0, 0] ++ [88, 45] ++ [0, 0, 0, 0] ++
    (Puz.EXT_GRBS ++ [1, 0, 0, 0, 1, 0]) ++
    (Puz.EXT_RTBL ++ [6, 0, 0, 0] ++ [48, 58, 99, 97, 116, 59] ++ [0])

/-- Events declaring a 2×1 grid and one block `cell` element with `x="0"`
(a zero coordinate, outside the 1-indexed grid). -/
def c9EventsWith : List Jpz.XmlEvent :=
  [.start "grid" [("width", "2"), ("height", "1")],
   .empty "cell" [("x", "0"), ("y", "1"), ("type", "block")]]

/-- The same events without the cell element. -/
def c9EventsWithout : List Jpz.XmlEvent :=
  [.start "grid" [("width", "2"), ("height", "1")]]

/-- An entry of an ipuz clue list that the decoder skips: anything that is
not a JSON array of length ≥ 2. -/
def notClueArray : Ipuz.JsonValue → Bool
  | .arr a => a.length < 2
  | _ => true

/-- A 1×1 ipuz crossword whose across clue list holds the single entry
`["x", "t"]` (an array of length 2 whose first element is not a number). -/
def c8BadFile : Ipuz.IpuzFile :=
  { kind := ["http://ipuz.org/crossword#1"], dimensions := some ⟨1, 1⟩
    puzzle := some [[.num 0]], solution := none
    clues := some ⟨[.arr [.str "x", .str "t"]], []⟩
    title := none, author := none, copyright := none, notes := none }

/-- The same file with the offending entry absent. -/
def c8GoodFile : Ipuz.IpuzFile :=
  { kind := ["http://ipuz.org/crossword#1"], dimensions := some ⟨1, 1⟩
    puzzle := some [[.num 0]], solution := none
    clues := some ⟨[], []⟩
    title := none, author := none, copyright := none, notes := none }

/-- The repository's own 3×3 test fixture, `CAT` / `.O.` / `DOG`. -/
def catBytes : List Nat :=
  List.replicate 2 0 ++ Puz.MAGIC ++ List.replicate 30 0 ++
    [3, 3, 3, 0, 0, 0, 0, 0] ++
    [67, 65, 84, 46, 79, 46, 68, 79, 71] ++ List.replicate 9 45 ++
    [0, 0, 0] ++ [70, 101, 108, 105, 110, 101, 0] ++ [78, 80, 0] ++
    [67, 97, 110, 105, 110, 101, 0] ++ [0]

/-- Whether the cell at `(r, c)` of a decoded grid starts an across word
(the claim's grid-topology notion, stated on the typed grid). -/
def cellStartsAcross (grid : List (List Cell)) (w r c : Nat) : Bool :=
  (Ipuz.cellAt grid r c).kind = CellKind.Letter ∧
  (c = 0 ∨ (Ipuz.cellAt grid r (c - 1)).kind = CellKind.Black) ∧
  (c + 1 < w ∧ (Ipuz.cellAt grid r (c + 1)).kind = CellKind.Letter)

/-- A 3×1 ipuz crossword whose input numbers the single word-start cell 5. -/
def c1IpuzFile : Ipuz.IpuzFile :=
  { kind := ["http://ipuz.org/crossword#1"], dimensions := some ⟨3, 1⟩
    puzzle := some [[.num 5, .num 0, .num 0]], solution := none
    clues := some ⟨[.arr [.num 5, .str "t"]], []⟩
    title := none, author := none, copyright := none, notes := none }

/-- The initial accumulator of the Archive/XML grid-building fold. -/
def jpzStartGrid (w h : Nat) : List (List Cell) × Bool :=
  (List.replicate h (List.replicate w Jpz.initLetterCell), false)

/-- A 1×1 ipuz crossword whose only cell is a block. -/
def c5IpuzFile : Ipuz.IpuzFile :=
  { kind := ["http://ipuz.org/crossword#1"], dimensions := some ⟨1, 1⟩
    puzzle := some [[.str "#"]], solution := none
    clues := some ⟨[], []⟩
    title := none, author := none, copyright := none, notes := none }

/-- The puzzle `c5IpuzFile` decodes to. -/
def c5IpuzPuzzle : Puzzle :=
  { title := "", author := "", copyright := "", notes := "", width := 1,
    height := 1, grid := [[Puz.blackCell]], clues := { across := [], down := [] },
    has_solution := false, is_scrambled := false }

/-- The puzzle `c9EventsWith` decodes to. -/
def c5JpzPuzzle : Puzzle :=
  { title := "", author := "", copyright := "", notes := "", width := 2,
    height := 1, grid := [[Puz.blackCell, Jpz.initLetterCell]],
    clues := { across := [], down := [] },
    has_solution := false, is_scrambled := false }

/-- Whether a raw Archive/XML cell switches `has_solution` on: it is placed
in range, is not a block, and carries a `solution` attribute. -/
def jpzCellAddsSolution (w h : Nat) (c : Jpz.RawCell) : Bool :=
  !(decide (c.y - 1 ≥ h ∨ c.x - 1 ≥ w)) && (!c.is_block && c.solution.isSome)

/-- A 1×1 ipuz crossword with a `solution` array that contains no string at
all (a single `null`). -/
def c7IpuzFile : Ipuz.IpuzFile :=
  { kind := ["http://ipuz.org/crossword#1"], dimensions := some ⟨1, 1⟩
    puzzle := some [[.num 0]], solution := some [[.null]]
    clues := some ⟨[], []⟩
    title := none, author := none, copyright := none, notes := none }

/-- The event-loop state after `c9EventsWith`. -/
def c7JpzState : Jpz.XmlState :=
  { Jpz.initState with
      grid_width := 2, grid_height := 1
      raw_cells := [{ x := 0, y := 1, solution := none, number := none,
                      is_block := true, is_circled := false }] }

/-! ## Claims -/

/-- C4, counterexample.  The dispatcher lowercases the format hint before
matching, and the `UnsupportedFormat` failure carries that lowercased token,
not the token exactly as supplied: for the hint `"PDF"` the failure carries
`"pdf"`. -/
theorem c4_counterexample :
    XwordParser.parse "PDF" = .error (.UnsupportedFormat "pdf") ∧
      XwordParser.parse "PDF" ≠ .error (.UnsupportedFormat "PDF") := by
  decide

/-- C4, amended.  Dispatch is case-insensitive (hints with the same
lowercasing route identically); the lowercased tokens `puz`, `ipuz`, `jpz`,
`xml` select the respective decoders with `jpz` and `xml` sharing the
Archive/XML route; and every other hint yields an unsupported-format failure
carrying the lowercased token. -/
theorem c4_dispatch :
    (∀ e₁ e₂ : String, rustToLower e₁ = rustToLower e₂ →
      XwordParser.parse e₁ = XwordParser.parse e₂) ∧
    XwordParser.parse "puz" = .ok .puz ∧
    XwordParser.parse "ipuz" = .ok .ipuz ∧
    XwordParser.parse "jpz" = .ok .jpz ∧
    XwordParser.parse "xml" = .ok .jpz ∧
    (∀ e : String, rustToLower e ≠ "puz" → rustToLower e ≠ "ipuz" →
      rustToLower e ≠ "jpz" → rustToLower e ≠ "xml" →
      XwordParser.parse e = .error (.UnsupportedFormat (rustToLower e))) := by
  refine ⟨fun e₁ e₂ h => ?_, by decide, by decide, by decide, by decide,
    fun e h1 h2 h3 h4 => ?_⟩
  · simp only [XwordParser.parse, h]
  · simp only [XwordParser.parse, if_neg h1, if_neg h2]
    exact if_neg (fun hc => hc.elim h3 h4)

/-- C4 witness: the case-insensitivity part at `"PUZ"`/`"puz"` and the
fallback part at `"pdf"`. -/
theorem c4_dispatch_witness :
    XwordParser.parse "PUZ" = XwordParser.parse "puz" ∧
      XwordParser.parse "pdf" = .error (.UnsupportedFormat (rustToLower "pdf")) :=
  ⟨c4_dispatch.1 "PUZ" "puz" (by decide),
   c4_dispatch.2.2.2.2.2 "pdf" (by decide) (by decide) (by decide) (by decide)⟩

/-- C6.  A buffer shorter than the fixed 0x34-byte header fails with
`FileTooShort` naming the header size and the actual length; a buffer that
passes the header checks (magic, nonzero dimensions) but cannot hold the two
width×height grids fails with `FileTooShort` naming the grids' end offset and
the actual length.  Both are plain errors: no partial puzzle and no panic. -/
theorem c6_too_short :
    (∀ data : List Nat, data.length < Puz.HEADER_SIZE →
      Puz.parse data = some (.error (.FileTooShort Puz.HEADER_SIZE data.length))) ∧
    (∀ data : List Nat, ¬ data.length < Puz.HEADER_SIZE →
      (data.drop Puz.OFFSET_MAGIC).take 12 = Puz.MAGIC →
      ¬ (Puz.widthOf data = 0 ∨ Puz.heightOf data = 0) →
      data.length < Puz.stateEndOf data →
      Puz.parse data =
        some (.error (.FileTooShort (Puz.stateEndOf data) data.length))) := by
  constructor
  · intro data h
    simp only [Puz.parse, if_pos h]
  · intro data h1 h2 h3 h4
    simp only [Puz.parse, if_neg h1, h2, if_neg h3, if_pos h4, ne_eq,
      not_true_eq_false, if_false]

/-- C6 witness: the empty buffer and the header-only buffer. -/
theorem c6_too_short_witness :
    Puz.parse [] = some (.error (.FileTooShort Puz.HEADER_SIZE 0)) ∧
      Puz.parse puzHeaderOnly =
        some (.error (.FileTooShort (Puz.stateEndOf puzHeaderOnly)
          puzHeaderOnly.length)) :=
  ⟨c6_too_short.1 [] (by decide),
   c6_too_short.2 puzHeaderOnly (by decide) (by decide) (by decide) (by decide)⟩

/-- C10.  The binary decoder is not total: on `c10Bytes` the Rust code
panics (modelled by `none`), because `parse_strings` returns the single
string `"AB"` and the slice `strings[3..3 + num_clues]` is then out of
range.  This contradicts the claim (and §5 of the spec, which requires all
slice arithmetic to stay in bounds). -/
theorem c10_panic : Puz.parse c10Bytes = none := by decide

/-- C2, counterexample.  The binary decoder stores the rebus-table entry
verbatim: for the table entry `"0:cat;"` the decoded cell has
`rebus_solution = some "cat"`, which is not the uppercased answer `"CAT"`,
and its `solution` is the uppercased grid byte `"X"`, not the first character
of the answer. -/
theorem c2_counterexample :
    Puz.parse c2Bytes = some (.ok (Puz.mkPuzzleFrom c2Bytes)) ∧
      (Ipuz.cellAt (Puz.mkPuzzleFrom c2Bytes).grid 0 0).rebus_solution = some "cat" ∧
      some "cat" ≠ some (rustToUpper "cat") ∧
      (Ipuz.cellAt (Puz.mkPuzzleFrom c2Bytes).grid 0 0).solution = some "X" ∧
      some "X" ≠ some (headStr (rustToUpper "cat")) := by
  exact ⟨by decide, by decide, by decide, by decide, by decide⟩

/-- C2, amended.  In the JSON and XML decoders the rebus rule holds: a
present solution string (other than `"#"`/`""` in the JSON `str` form) whose
uppercased form is longer than one UTF-8 byte yields `solution` = its first
character and `rebus_solution` = the full uppercased string, and otherwise
`rebus_solution = none`.  (The binary decoder does not follow this rule: see
the counterexample.) -/
theorem c2_rebus :
    (∀ s : String, Ipuz.parse_solution_cell (.str s) =
      if s = "#" ∨ s = "" then (none, none)
      else if rustLen (rustToUpper s) > 1 then
        (some (headStr (rustToUpper s)), some (rustToUpper s))
      else (some (rustToUpper s), none)) ∧
    (∀ s : String, Ipuz.parse_solution_cell (.obj [("value", .str s)]) =
      if rustLen (rustToUpper s) > 1 then
        (some (headStr (rustToUpper s)), some (rustToUpper s))
      else (some (rustToUpper s), none)) ∧
    (∀ s : String, Jpz.solutionPair (some s) =
      if rustLen (rustToUpper s) > 1 then
        (some (headStr (rustToUpper s)), some (rustToUpper s))
      else (some (rustToUpper s), none)) ∧
    Jpz.solutionPair none = (none, none) := by
  refine ⟨fun s => ?_, fun s => ?_, fun s => rfl, rfl⟩
  · rfl
  · simp only [Ipuz.parse_solution_cell, Ipuz.jget, List.find?, Ipuz.asStr]
    norm_num

/-- C3.  For any behavior of the external zip and XML layers: if a byte
sequence `x` does not itself begin with the zip magic (true of every XML
document, which starts with `<`, whitespace, or a BOM), and `z` is an archive
(it carries the magic) whose extraction yields exactly `x`, then the
Archive/XML decoder returns the identical result on `z` and on `x` — both
sides parse the same bytes as XML. -/
theorem c3_zip_equivalence :
    ∀ (zipExtract : List Nat → Except ParseError (List Nat))
      (xmlEvents : List Nat → List Jpz.XmlEvent) (x z : List Nat),
      Jpz.ZIP_MAGIC.isPrefixOf x = false →
      Jpz.ZIP_MAGIC.isPrefixOf z = true →
      zipExtract z = .ok x →
      Jpz.parse zipExtract xmlEvents z = Jpz.parse zipExtract xmlEvents x := by
  intro zipExtract xmlEvents x z hx hz hE
  simp only [Jpz.parse, hx, hz, hE, if_true, if_false, Bool.false_eq_true]

/-- C3 witness: a trivial extraction function, the payload `[60]` (`"<"`),
and an archive consisting of just the magic bytes. -/
theorem c3_zip_equivalence_witness :
    Jpz.parse (fun _ => .ok [60]) (fun _ => []) Jpz.ZIP_MAGIC =
      Jpz.parse (fun _ => .ok [60]) (fun _ => []) [60] :=
  c3_zip_equivalence (fun _ => .ok [60]) (fun _ => []) [60] Jpz.ZIP_MAGIC
    (by decide) (by decide) rfl

/-- C9, counterexample.  A `cell` element with the zero coordinate `x="0"` is
not dropped: `saturating_sub` turns `x = 0` into column 0, so the element
overwrites cell (0,0) — here turning it black — and the decode differs from
the element-absent decode. -/
theorem c9_counterexample :
    Jpz.parse_xml c9EventsWith ≠ Jpz.parse_xml c9EventsWithout ∧
      (Jpz.parse_xml c9EventsWith).toOption.map
          (fun p => (Ipuz.cellAt p.grid 0 0).kind) = some CellKind.Black ∧
      (Jpz.parse_xml c9EventsWithout).toOption.map
          (fun p => (Ipuz.cellAt p.grid 0 0).kind) = some CellKind.Letter := by
  exact ⟨by decide, by decide, by decide⟩

/-- C9, amended.  A `cell` element whose 1-indexed coordinates exceed the
declared grid dimensions (`x > width` or `y > height`) is silently dropped by
the grid-building fold — the grid is the one built without it; but a zero
coordinate saturates to index 0 and is treated like coordinate 1 (see the
counterexample). -/
theorem c9_out_of_range_dropped :
    (∀ (w h : Nat) (acc : List (List Cell) × Bool) (c : Jpz.RawCell),
      w < c.x ∨ h < c.y → Jpz.placeCell w h acc c = acc) ∧
    (∀ (w h : Nat) (cs₁ cs₂ : List Jpz.RawCell) (c : Jpz.RawCell)
      (acc : List (List Cell) × Bool),
      w < c.x ∨ h < c.y →
      (cs₁ ++ c :: cs₂).foldl (Jpz.placeCell w h) acc =
        (cs₁ ++ cs₂).foldl (Jpz.placeCell w h) acc) := by
  have skip : ∀ (w h : Nat) (acc : List (List Cell) × Bool) (c : Jpz.RawCell),
      w < c.x ∨ h < c.y → Jpz.placeCell w h acc c = acc := by
    intro w h acc c hc
    have : c.y - 1 ≥ h ∨ c.x - 1 ≥ w := by omega
    simp only [Jpz.placeCell]
    exact if_pos this
  refine ⟨skip, fun w h cs₁ cs₂ c acc hc => ?_⟩
  simp only [List.foldl_append, List.foldl_cons, skip w h _ c hc]

/-- C9 witness: the skip behavior at a concrete out-of-range cell. -/
theorem c9_out_of_range_dropped_witness :
    Jpz.placeCell 2 1
        (List.replicate 1 (List.replicate 2 Jpz.initLetterCell), false)
        { x := 3, y := 1, solution := none, number := none,
          is_block := true, is_circled := false } =
      (List.replicate 1 (List.replicate 2 Jpz.initLetterCell), false) :=
  c9_out_of_range_dropped.1 2 1 _ _ (Or.inl (by decide))

/-- C8, counterexample.  A clue entry that is an array of length ≥ 2 whose
first element is not a number does not match the `[number, text, ...]` shape,
yet it is not skipped: the decode fails with `InvalidData`, unlike the decode
with the entry absent, which succeeds. -/
theorem c8_counterexample :
    Ipuz.parse c8BadFile = .error (.InvalidData "clue number is not a number") ∧
      (Ipuz.parse c8GoodFile).isOk = true ∧
      Ipuz.parse c8BadFile ≠ Ipuz.parse c8GoodFile := by
  exact ⟨by decide, by decide, by decide⟩

/-- C8, amended.  Only clue entries that are not arrays of length ≥ 2 are
silently skipped (the decode continues as if they were absent); an array
entry of length ≥ 2 whose first element is not an unsigned integer instead
fails the whole decode with an `InvalidData` failure. -/
theorem c8_clue_entries :
    (∀ (v : Ipuz.JsonValue) (rest : List Ipuz.JsonValue)
      (grid : List (List Cell)) (w h : Nat) (d : Bool), notClueArray v = true →
      Ipuz.build_clues (v :: rest) grid w h d = Ipuz.build_clues rest grid w h d) ∧
    (∀ (s : String) (t : Ipuz.JsonValue) (rest : List Ipuz.JsonValue)
      (grid : List (List Cell)) (w h : Nat) (d : Bool),
      Ipuz.build_clues (.arr [.str s, t] :: rest) grid w h d =
        .error (.InvalidData "clue number is not a number")) := by
  constructor
  · intro v rest grid w h d hv
    cases v with
    | arr a =>
      have : ¬ a.length ≥ 2 := by
        simp only [notClueArray, decide_eq_true_eq] at hv
        omega
      simp only [Ipuz.build_clues, if_neg this]
    | null => rfl
    | bool b => rfl
    | num n => rfl
    | float => rfl
    | str s => rfl
    | obj fields => rfl
  · intro s t rest grid w h d
    rfl

/-- C8 witness: the skip behavior at a concrete non-array entry. -/
theorem c8_clue_entries_witness :
    Ipuz.build_clues [.str "junk"] [] 1 1 true =
      Ipuz.build_clues [] [] 1 1 true :=
  c8_clue_entries.1 (.str "junk") [] [] 1 1 true (by decide)

/-! ### The numbering invariant of the binary decoder -/

/-- Each cell processed by `build_grid`'s loop either receives no number and
leaves the counter unchanged, or receives exactly the current counter value
and increments it by one. -/
theorem processCell_step (sol state : List Nat) (w h : Nat)
    (ct : List String) (ext : Puz.Extensions) (row col : Nat)
    (s : Puz.NumState) :
    ((Puz.processCell sol state w h ct ext row col s).1.number = none ∧
      (Puz.processCell sol state w h ct ext row col s).2.clueNumber = s.clueNumber) ∨
    ((Puz.processCell sol state w h ct ext row col s).1.number = some s.clueNumber ∧
      (Puz.processCell sol state w h ct ext row col s).2.clueNumber = s.clueNumber + 1) := by
  simp only [Puz.processCell]
  split
  · exact Or.inl ⟨rfl, rfl⟩
  · split
    · exact Or.inr ⟨rfl, rfl⟩
    · exact Or.inl ⟨rfl, rfl⟩

/-- Over one row, the numbers assigned in column order are exactly the
consecutive block of counter values consumed by that row. -/
theorem colLoop_numbers (sol state : List Nat) (w h : Nat) (ct : List String)
    (ext : Puz.Extensions) (row : Nat) :
    ∀ (cols : List Nat) (s : Puz.NumState),
      (Puz.colLoop sol state w h ct ext row cols s).1.filterMap Cell.number =
        List.range' s.clueNumber
          ((Puz.colLoop sol state w h ct ext row cols s).2.clueNumber - s.clueNumber) ∧
      s.clueNumber ≤ (Puz.colLoop sol state w h ct ext row cols s).2.clueNumber := by
  intro cols
  induction cols with
  | nil => intro s; simp [Puz.colLoop]
  | cons c cs ih =>
    intro s
    simp only [Puz.colLoop, List.filterMap_cons]
    rcases processCell_step sol state w h ct ext row c s with ⟨h1, h2⟩ | ⟨h1, h2⟩
    · rcases ih (Puz.processCell sol state w h ct ext row c s).2 with ⟨ihEq, ihLe⟩
      rw [h1, ihEq, h2]
      rw [h2] at ihLe
      exact ⟨rfl, ihLe⟩
    · rcases ih (Puz.processCell sol state w h ct ext row c s).2 with ⟨ihEq, ihLe⟩
      rw [h1, ihEq, h2]
      rw [h2] at ihLe
      constructor
      · have hlen : (Puz.colLoop sol state w h ct ext row cs
            (Puz.processCell sol state w h ct ext row c s).2).2.clueNumber -
            s.clueNumber =
            ((Puz.colLoop sol state w h ct ext row cs
              (Puz.processCell sol state w h ct ext row c s).2).2.clueNumber -
              (s.clueNumber + 1)) + 1 := by omega
        rw [hlen, List.range'_succ]
      · omega

/-- Gluing two adjacent blocks of consecutive numbers. -/
theorem range'_glue (a b c : Nat) (h1 : a ≤ b) (h2 : b ≤ c) :
    List.range' a (b - a) ++ List.range' b (c - b) = List.range' a (c - a) := by
  have happ := List.range'_append a (b - a) (c - b) 1
  simp only [one_mul] at happ
  rw [show a + (b - a) = b by omega] at happ
  rw [happ, show c - b + (b - a) = c - a by omega]

/-- Over all rows, the numbers assigned in row-major order are exactly the
consecutive block of counter values consumed. -/
theorem rowLoop_numbers (sol state : List Nat) (w h : Nat) (ct : List String)
    (ext : Puz.Extensions) :
    ∀ (rows : List Nat) (s : Puz.NumState),
      (Puz.rowLoop sol state w h ct ext rows s).1.flatten.filterMap Cell.number =
        List.range' s.clueNumber
          ((Puz.rowLoop sol state w h ct ext rows s).2.clueNumber - s.clueNumber) ∧
      s.clueNumber ≤ (Puz.rowLoop sol state w h ct ext rows s).2.clueNumber := by
  intro rows
  induction rows with
  | nil => intro s; simp [Puz.rowLoop]
  | cons r rs ih =>
    intro s
    simp only [Puz.rowLoop, List.flatten_cons, List.filterMap_append]
    rcases colLoop_numbers sol state w h ct ext r (List.range w) s with ⟨cEq, cLe⟩
    rcases ih (Puz.colLoop sol state w h ct ext r (List.range w) s).2 with ⟨rEq, rLe⟩
    rw [cEq, rEq]
    exact ⟨range'_glue _ _ _ cLe rLe, le_trans cLe rLe⟩

/-- On success, `parse` returns exactly the puzzle assembled by
`mkPuzzleFrom`. -/
theorem puz_parse_ok (data : List Nat) (p : Puzzle)
    (h : Puz.parse data = some (.ok p)) : p = Puz.mkPuzzleFrom data := by
  unfold Puz.parse at h
  repeat' split at h
  all_goals simp_all

/-- C1, counterexample.  The JSON decoder copies cell numbers from the input
rather than deriving them: `c1IpuzFile` decodes successfully, its cell (0,0)
starts an across word, and the row-major sequence of assigned numbers is
`[5]`, not `[1]` — so the numbers do not increase by exactly 1 from 1, and
the numbering differs from the binary decoder's derived numbering of an
equivalent grid. -/
theorem c1_counterexample :
    (Ipuz.parse c1IpuzFile).isOk = true ∧
      (Ipuz.parse c1IpuzFile).toOption.map
          (fun p => p.grid.flatten.filterMap Cell.number) = some [5] ∧
      (Ipuz.parse c1IpuzFile).toOption.map
          (fun p => cellStartsAcross p.grid 3 0 0) = some true ∧
      some [5] ≠ some (List.range' 1 1) := by
  exact ⟨by decide, by decide, by decide, by decide⟩

/-- C1, amended.  In the binary decoder the numbering invariant holds: for
every successfully decoded buffer, the row-major sequence of assigned cell
numbers is exactly `1, 2, 3, …`, and a cell is numbered precisely when it
starts an across or down word (the JSON and XML decoders instead copy
numbers verbatim from the input — see the counterexample). -/
theorem c1_numbering :
    (∀ (data : List Nat) (p : Puzzle), Puz.parse data = some (.ok p) →
      p.grid.flatten.filterMap Cell.number =
        List.range' 1 (p.grid.flatten.filterMap Cell.number).length) ∧
    (∀ (sol state : List Nat) (w h : Nat) (ct : List String)
      (ext : Puz.Extensions) (row col : Nat) (s : Puz.NumState),
      ((Puz.processCell sol state w h ct ext row col s).1.number).isSome =
        (!(Puz.byteAt sol (row * w + col) == 46) &&
          (Puz.is_across_start sol w h row col ||
            Puz.is_down_start sol w h row col))) := by
  constructor
  · intro data p hp
    have hpe : p = Puz.mkPuzzleFrom data := puz_parse_ok data p hp
    subst hpe
    have hgrid : (Puz.mkPuzzleFrom data).grid =
        (Puz.rowLoop (Puz.solutionGridOf data) (Puz.stateGridOf data)
          (Puz.widthOf data) (Puz.heightOf data) (Puz.clueTextsOf data)
          (Puz.extensionsOf data) (List.range (Puz.heightOf data))
          ⟨1, 0, [], []⟩).1 := rfl
    rw [hgrid]
    rcases rowLoop_numbers (Puz.solutionGridOf data) (Puz.stateGridOf data)
      (Puz.widthOf data) (Puz.heightOf data) (Puz.clueTextsOf data)
      (Puz.extensionsOf data) (List.range (Puz.heightOf data)) ⟨1, 0, [], []⟩
      with ⟨hEq, _⟩
    rw [hEq]
    simp [List.length_range']
  · intro sol state w h ct ext row col s
    simp only [Puz.processCell]
    split
    case isTrue hb => simp [hb, Puz.blackCell]
    case isFalse hb =>
      split
      case isTrue hs => simp [hb, hs]
      case isFalse hs => simp [hb, hs]

/-- C1 witness: the numbering statement applied to the repository's own
`CAT`/`.O.`/`DOG` fixture, whose derived numbers are `[1, 2, 3]`. -/
theorem c1_numbering_witness :
    (Puz.mkPuzzleFrom catBytes).grid.flatten.filterMap Cell.number =
      List.range' 1
        ((Puz.mkPuzzleFrom catBytes).grid.flatten.filterMap Cell.number).length :=
  c1_numbering.1 catBytes (Puz.mkPuzzleFrom catBytes) rfl

/-! ### The black-cell invariant -/

/-- A cell produced by `processCell` whose kind is `Black` is the all-default
black cell. -/
theorem processCell_black (sol state : List Nat) (w h : Nat) (ct : List String)
    (ext : Puz.Extensions) (row col : Nat) (s : Puz.NumState)
    (hk : (Puz.processCell sol state w h ct ext row col s).1.kind = CellKind.Black) :
    (Puz.processCell sol state w h ct ext row col s).1 = Puz.blackCell := by
  revert hk
  simp only [Puz.processCell]
  split
  · intro _; rfl
  · split
    · intro hk; simp at hk
    · intro hk; simp at hk

/-- Black cells of one `colLoop` row are all-default. -/
theorem colLoop_black (sol state : List Nat) (w h : Nat) (ct : List String)
    (ext : Puz.Extensions) (row : Nat) :
    ∀ (cols : List Nat) (s : Puz.NumState) (cell : Cell),
      cell ∈ (Puz.colLoop sol state w h ct ext row cols s).1 →
      cell.kind = CellKind.Black → cell = Puz.blackCell := by
  intro cols
  induction cols with
  | nil => intro s cell hm; simp [Puz.colLoop] at hm
  | cons c cs ih =>
    intro s cell hm hk
    simp only [Puz.colLoop, List.mem_cons] at hm
    rcases hm with rfl | hm
    · exact processCell_black sol state w h ct ext row c s hk
    · exact ih _ cell hm hk

/-- Black cells of the whole `rowLoop` grid are all-default. -/
theorem rowLoop_black (sol state : List Nat) (w h : Nat) (ct : List String)
    (ext : Puz.Extensions) :
    ∀ (rows : List Nat) (s : Puz.NumState) (cell : Cell),
      cell ∈ (Puz.rowLoop sol state w h ct ext rows s).1.flatten →
      cell.kind = CellKind.Black → cell = Puz.blackCell := by
  intro rows
  induction rows with
  | nil => intro s cell hm; simp [Puz.rowLoop] at hm
  | cons r rs ih =>
    intro s cell hm hk
    simp only [Puz.rowLoop, List.flatten_cons, List.mem_append] at hm
    rcases hm with hm | hm
    · exact colLoop_black sol state w h ct ext r _ s cell hm hk
    · exact ih _ cell hm hk

/-- Black cells of an ipuz `buildRow` row are all-default. -/
theorem buildRow_black (sol : Option (List (List Ipuz.JsonValue))) (row : Nat) :
    ∀ (col : Nat) (vs : List Ipuz.JsonValue) (cell : Cell),
      cell ∈ Ipuz.buildRow sol row col vs →
      cell.kind = CellKind.Black → cell = Puz.blackCell := by
  intro col vs
  induction vs generalizing col with
  | nil => intro cell hm; simp [Ipuz.buildRow] at hm
  | cons v rest ih =>
    intro cell hm hk
    simp only [Ipuz.buildRow, List.mem_cons] at hm
    rcases hm with rfl | hm
    · revert hk
      split
      · intro _; rfl
      · intro hk; simp at hk
    · exact ih _ cell hm hk

/-- Black cells of an ipuz `buildRows` grid are all-default. -/
theorem buildRows_black (sol : Option (List (List Ipuz.JsonValue))) (w : Nat) :
    ∀ (rows : List (List Ipuz.JsonValue)) (row0 : Nat) (g : List (List Cell)),
      Ipuz.buildRows sol w row0 rows = .ok g →
      ∀ cell ∈ g.flatten, cell.kind = CellKind.Black → cell = Puz.blackCell := by
  intro rows
  induction rows with
  | nil =>
    intro row0 g hg cell hm
    simp only [Ipuz.buildRows] at hg
    cases hg
    simp at hm
  | cons pr rest ih =>
    intro row0 g hg cell hm hk
    simp only [Ipuz.buildRows] at hg
    split at hg
    · cases hg
    · split at hg
      · cases hg
        simp only [List.flatten_cons, List.mem_append] at hm
        rcases hm with hm | hm
        · exact buildRow_black sol row0 0 pr cell hm hk
        · exact ih (row0 + 1) _ (by assumption) cell hm hk
      · cases hg

/-- A member of a grid after `set2d` is a member of the old grid or the
written cell. -/
theorem mem_set2d {g : List (List Cell)} {r c : Nat} {x cell : Cell}
    (hm : cell ∈ (Jpz.set2d g r c x).flatten) : cell ∈ g.flatten ∨ cell = x := by
  simp only [Jpz.set2d, List.mem_flatten] at hm
  rcases hm with ⟨l, hl, hcl⟩
  rcases List.mem_or_eq_of_mem_set hl with hl | rfl
  · exact Or.inl (List.mem_flatten.2 ⟨l, hl, hcl⟩)
  · rcases List.mem_or_eq_of_mem_set hcl with hc | rfl
    · left
      apply List.mem_flatten.2
      refine ⟨g.getD r [], ?_, hc⟩
      rcases h : g[r]? with _ | row
      · rw [List.getD_eq_getElem?_getD, h] at hc
        simp at hc
      · rw [List.getD_eq_getElem?_getD, h]
        simpa using List.get?_mem
          (show g.get? r = some row by rw [List.get?_eq_getElem?, h])
    · exact Or.inr rfl

/-- `placeCell` preserves the black-cell invariant. -/
theorem placeCell_black (w h : Nat) (acc : List (List Cell) × Bool)
    (c : Jpz.RawCell)
    (hacc : ∀ cell ∈ acc.1.flatten, cell.kind = CellKind.Black → cell = Puz.blackCell) :
    ∀ cell ∈ (Jpz.placeCell w h acc c).1.flatten,
      cell.kind = CellKind.Black → cell = Puz.blackCell := by
  intro cell hm hk
  revert hm
  simp only [Jpz.placeCell]
  split
  · exact fun hm => hacc cell hm hk
  · split
    · intro hm
      rcases mem_set2d hm with hm | rfl
      · exact hacc cell hm hk
      · rfl
    · intro hm
      rcases mem_set2d hm with hm | rfl
      · exact hacc cell hm hk
      · simp at hk

/-- The grid-building fold over `raw_cells` preserves the black-cell
invariant. -/
theorem placeCells_black (w h : Nat) :
    ∀ (cells : List Jpz.RawCell) (acc : List (List Cell) × Bool),
      (∀ cell ∈ acc.1.flatten, cell.kind = CellKind.Black → cell = Puz.blackCell) →
      ∀ cell ∈ (cells.foldl (Jpz.placeCell w h) acc).1.flatten,
        cell.kind = CellKind.Black → cell = Puz.blackCell := by
  intro cells
  induction cells with
  | nil => intro acc hacc; exact hacc
  | cons c cs ih =>
    intro acc hacc
    exact ih (Jpz.placeCell w h acc c) (placeCell_black w h acc c hacc)

/-- On success, the JSON decoder's grid is the one built by `buildRows`, and
`has_solution` records exactly whether the `solution` field was present. -/
theorem ipuz_parse_ok_inv (f : Ipuz.IpuzFile) (p : Puzzle)
    (h : Ipuz.parse f = .ok p) :
    (∃ g, Ipuz.buildRows f.solution p.width 0 (f.puzzle.getD []) = .ok g ∧
      p.grid = g) ∧
    p.has_solution = f.solution.isSome ∧ p.is_scrambled = false := by
  unfold Ipuz.parse at h
  repeat' (first | split at h | dsimp only at h)
  all_goals first
    | (injection h; done)
    | (injection h with h2; cases h2; refine ⟨⟨_, ?_, rfl⟩, rfl, rfl⟩; simp_all)

/-- On success, the Archive/XML decoder's grid and `has_solution` flag are
the results of folding `placeCell` over the raw cells. -/
theorem jpz_finalize_ok_inv (st : Jpz.XmlState) (p : Puzzle)
    (h : Jpz.finalize st = .ok p) :
    p.grid = (st.raw_cells.foldl (Jpz.placeCell st.grid_width st.grid_height)
      (jpzStartGrid st.grid_width st.grid_height)).1 ∧
    p.has_solution = (st.raw_cells.foldl (Jpz.placeCell st.grid_width st.grid_height)
      (jpzStartGrid st.grid_width st.grid_height)).2 ∧
    p.is_scrambled = false := by
  unfold Jpz.finalize at h
  split at h
  · cases h
  · injection h with h2
    cases h2
    exact ⟨rfl, rfl, rfl⟩

/-- C5.  In all three decoders, every `Black` cell of a successfully decoded
puzzle is the all-default black cell: no number, no solution, no rebus, no
player value, and all three flags false. -/
theorem c5_black_cells :
    (∀ (data : List Nat) (p : Puzzle), Puz.parse data = some (.ok p) →
      ∀ cell ∈ p.grid.flatten, cell.kind = CellKind.Black → cell = Puz.blackCell) ∧
    (∀ (f : Ipuz.IpuzFile) (p : Puzzle), Ipuz.parse f = .ok p →
      ∀ cell ∈ p.grid.flatten, cell.kind = CellKind.Black → cell = Puz.blackCell) ∧
    (∀ (evs : List Jpz.XmlEvent) (p : Puzzle), Jpz.parse_xml evs = .ok p →
      ∀ cell ∈ p.grid.flatten, cell.kind = CellKind.Black → cell = Puz.blackCell) := by
  refine ⟨fun data p hp => ?_, fun f p hp => ?_, fun evs p hp => ?_⟩
  · have hpe : p = Puz.mkPuzzleFrom data := puz_parse_ok data p hp
    subst hpe
    exact rowLoop_black _ _ _ _ _ _ _ _
  · rcases ipuz_parse_ok_inv f p hp with ⟨⟨g, hg, hpg⟩, _, _⟩
    rw [hpg]
    exact buildRows_black f.solution p.width _ 0 g hg
  · unfold Jpz.parse_xml at hp
    split at hp
    case h_2 => cases hp
    case h_1 st hst =>
      rcases jpz_finalize_ok_inv st p hp with ⟨hg, _, _⟩
      rw [hg]
      apply placeCells_black
      intro cell hm hk
      rcases List.mem_flatten.1 hm with ⟨l, hl, hcl⟩
      rw [List.eq_of_mem_replicate hl] at hcl
      rw [List.eq_of_mem_replicate hcl] at hk
      cases hk

/-- C5 witness: a black cell of each decoder's output is the all-default
black cell, at concrete inputs for all three decoders. -/
theorem c5_black_cells_witness :
    Ipuz.cellAt (Puz.mkPuzzleFrom catBytes).grid 1 0 = Puz.blackCell ∧
      Ipuz.cellAt c5IpuzPuzzle.grid 0 0 = Puz.blackCell ∧
      Ipuz.cellAt c5JpzPuzzle.grid 0 0 = Puz.blackCell :=
  ⟨c5_black_cells.1 catBytes (Puz.mkPuzzleFrom catBytes) rfl
      (Ipuz.cellAt (Puz.mkPuzzleFrom catBytes).grid 1 0) (by decide) (by decide),
   c5_black_cells.2.1 c5IpuzFile c5IpuzPuzzle (by decide)
      (Ipuz.cellAt c5IpuzPuzzle.grid 0 0) (by decide) (by decide),
   c5_black_cells.2.2 c9EventsWith c5JpzPuzzle (by decide)
      (Ipuz.cellAt c5JpzPuzzle.grid 0 0) (by decide) (by decide)⟩

/-- The grid-building fold's `has_solution` flag is the disjunction over the
raw cells. -/
theorem placeCells_snd (w h : Nat) :
    ∀ (cells : List Jpz.RawCell) (acc : List (List Cell) × Bool),
      (cells.foldl (Jpz.placeCell w h) acc).2 =
        (acc.2 || cells.any (jpzCellAddsSolution w h)) := by
  intro cells
  induction cells with
  | nil => intro acc; simp
  | cons c cs ih =>
    intro acc
    rw [List.foldl_cons, ih, List.any_cons]
    have hstep : (Jpz.placeCell w h acc c).2 =
        (acc.2 || jpzCellAddsSolution w h c) := by
      simp only [Jpz.placeCell, jpzCellAddsSolution]
      split
      · rename_i hcond
        simp [hcond]
      · rename_i hcond
        split
        · rename_i hblock
          simp [hcond, hblock]
        · rename_i hblock
          simp at hblock
          simp [hcond, hblock]
    rw [hstep, Bool.or_assoc]

/-- C7, counterexample.  `has_solution` is not "solution letters were
present": `c7IpuzFile`'s solution array holds a single `null`, no solution
letter exists anywhere (every decoded cell has `solution = none`), yet the
decoder reports `has_solution = true` merely because the `solution` field was
present. -/
theorem c7_counterexample :
    (Ipuz.parse c7IpuzFile).toOption.map (fun p => p.has_solution) = some true ∧
      (Ipuz.parse c7IpuzFile).toOption.map
        (fun p => p.grid.flatten.all
          (fun c => c.solution == none && c.rebus_solution == none)) = some true := by
  exact ⟨by decide, by decide⟩

/-- C7, amended.  `has_solution` records the presence of solution *data*
rather than of solution letters: the binary decoder sets it iff the scramble
tag is zero (a solution grid is always present); the JSON decoder iff the
`solution` field is present, whatever it holds; the Archive/XML decoder iff
some in-range non-block `cell` element carries a `solution` attribute (even
an empty one). -/
theorem c7_has_solution :
    (∀ (data : List Nat) (p : Puzzle), Puz.parse data = some (.ok p) →
      (p.has_solution = true ↔ Puz.scrambledTagOf data = 0)) ∧
    (∀ (f : Ipuz.IpuzFile) (p : Puzzle), Ipuz.parse f = .ok p →
      p.has_solution = f.solution.isSome) ∧
    (∀ (evs : List Jpz.XmlEvent) (st : Jpz.XmlState) (p : Puzzle),
      Jpz.runEvents evs Jpz.initState = .ok st → Jpz.finalize st = .ok p →
      p.has_solution =
        st.raw_cells.any (jpzCellAddsSolution st.grid_width st.grid_height)) := by
  refine ⟨fun data p hp => ?_, fun f p hp => ?_, fun evs st p _ hfin => ?_⟩
  · have hpe : p = Puz.mkPuzzleFrom data := puz_parse_ok data p hp
    subst hpe
    have hfield : (Puz.mkPuzzleFrom data).has_solution =
        decide (Puz.scrambledTagOf data = 0) := rfl
    rw [hfield, decide_eq_true_eq]
  · exact (ipuz_parse_ok_inv f p hp).2.1
  · rcases jpz_finalize_ok_inv st p hfin with ⟨_, hhs, _⟩
    rw [hhs, placeCells_snd]
    rfl

/-- C7 witness: the amended characterization at concrete inputs of all three
decoders. -/
theorem c7_has_solution_witness :
    ((Puz.mkPuzzleFrom catBytes).has_solution = true ↔
      Puz.scrambledTagOf catBytes = 0) ∧
      c5IpuzPuzzle.has_solution = c5IpuzFile.solution.isSome ∧
      c5JpzPuzzle.has_solution = c7JpzState.raw_cells.any
        (jpzCellAddsSolution c7JpzState.grid_width c7JpzState.grid_height) :=
  ⟨c7_has_solution.1 catBytes (Puz.mkPuzzleFrom catBytes) rfl,
   c7_has_solution.2.1 c5IpuzFile c5IpuzPuzzle (by decide),
   c7_has_solution.2.2 c9EventsWith c7JpzState c5JpzPuzzle (by decide) (by decide)⟩
